import Mathlib

/-!
Verification of the account-linking / dual-identity authentication core of
the railwaybackend server.  The Steam and Discord passport verify callbacks,
the merge-candidate query, session deserialization and the `/api/user`
handler are shallowly embedded as pure Lean functions over an explicit
identity store; the persistence layer (MongoDB via Mongoose) is modelled by
a list of documents threaded through each operation together with a
per-operation failure schedule for injected persistence errors.
-/

namespace Railway

/-- Payload of a Steam authentication callback: `profile.id`,
`profile.displayName`, `profile.photos[0]?.value` (absent photo modelled as
`none`, matching the `|| null` in the source), `profile._json.profileurl`. -/
structure SteamProfile where
  id : String
  displayName : String
  photo : Option String
  profileurl : String
  deriving DecidableEq, Repr

/-- Payload of a Discord authentication callback: `profile.id`,
`profile.username`, `profile.discriminator`, `profile.avatar`,
`profile.email` (nullable fields as `Option`). -/
structure DiscordProfile where
  id : String
  username : String
  discriminator : String
  avatar : Option String
  email : Option String
  deriving DecidableEq, Repr

/-- A persisted User document.  `uid` is the Mongo `_id` (modelled as a
`Nat` drawn from a counter in the store).  A field that is absent on the
document is `none`; queries with `$exists` test `isSome`/`isNone`.

Modelled from the spec: `./models/User.js` is required by the server but is
not in the source tree, so the schema defaults used at creation follow the
spec's data model (§3): `isFullyAuthenticated` defaults to `false`,
`createdAt` is set at creation and immutable, `lastLogin` is unset until an
authentication of an already-existing identity updates it. -/
structure Identity where
  uid : Nat
  steamId : Option String
  steamName : Option String
  steamAvatar : Option String
  steamProfileUrl : Option String
  discordId : Option String
  discordName : Option String
  discordAvatar : Option String
  discordEmail : Option String
  isFullyAuthenticated : Bool
  lastLogin : Option Nat
  createdAt : Nat
  deriving DecidableEq, Repr

/-- The user collection: documents in insertion (natural) order plus the
counter from which fresh `_id`s are drawn. -/
structure Store where
  docs : List Identity
  nextUid : Nat
  deriving DecidableEq, Repr

def emptyStore : Store := ⟨[], 0⟩

/-- `user.save()` on an already-persisted document: replace the document
with the matching `_id` in place, leaving every other document untouched. -/
def saveExisting (st : Store) (u : Identity) : Store :=
  { st with docs := st.docs.map (fun v => if v.uid = u.uid then u else v) }

/-- `new User(...); user.save()`: append the fresh document. -/
def saveNew (st : Store) (u : Identity) : Store :=
  { docs := st.docs ++ [u], nextUid := st.nextUid + 1 }

/-- `User.findOne({ steamId })`: first document whose `steamId` equals the
queried value, in natural order. -/
def findBySteamId (docs : List Identity) (s : String) : Option Identity :=
  docs.find? (fun u => decide (u.steamId = some s))

/-- `User.findOne({ discordId })`. -/
def findByDiscordId (docs : List Identity) (d : String) : Option Identity :=
  docs.find? (fun u => decide (u.discordId = some d))

/-- The merge-candidate filter:
`{ steamId: { $exists: true }, discordId: { $exists: false } }`. -/
def mergeMatch (u : Identity) : Bool :=
  u.steamId.isSome && u.discordId.isNone

/-- `.sort({ createdAt: -1 })` followed by taking the first result: fold
over the matching documents keeping the one with the strictly greatest
`createdAt` seen so far. -/
def pickLatest (x : Identity) (xs : List Identity) : Identity :=
  xs.foldl (fun best u => if best.createdAt < u.createdAt then u else best) x

/-- `User.findOne({ $and: [{steamId: {$exists:true}}, {discordId: {$exists:false}}] }).sort({ createdAt: -1 })`. -/
def mergeCandidate (docs : List Identity) : Option Identity :=
  match docs.filter mergeMatch with
  | [] => none
  | x :: xs => some (pickLatest x xs)

/-- Outcome of a verify callback: the pair handed to `done` — the error
channel (`some k` when the `k`-th persistence operation of the execution
threw, caught by the `catch` block) and the resolved user. -/
abbrev DoneResult := Option Nat × Option Identity

/-- Whether the `k`-th persistence round trip of this execution fails,
taken from an injected failure schedule. -/
def opFails (fails : List Bool) (k : Nat) : Bool :=
  fails.getD k false

/-- The document constructed by
`new User({ steamId, steamName, steamAvatar, steamProfileUrl })`, with the
schema defaults of §3 for the remaining fields. -/
def newSteamUser (uid : Nat) (p : SteamProfile) (now : Nat) : Identity :=
  { uid := uid
    steamId := some p.id
    steamName := some p.displayName
    steamAvatar := p.photo
    steamProfileUrl := some p.profileurl
    discordId := none, discordName := none
    discordAvatar := none, discordEmail := none
    isFullyAuthenticated := false
    lastLogin := none
    createdAt := now }

/-- The in-place mutation of an existing user on a repeat Steam login:
`user.steamName = ...; user.steamAvatar = ...; user.lastLogin = new Date()`
(the source does not touch `steamProfileUrl` here). -/
def updSteamUser (u0 : Identity) (p : SteamProfile) (now : Nat) : Identity :=
  { u0 with
    steamName := some p.displayName
    steamAvatar := p.photo
    lastLogin := some now }

/-- The SteamStrategy verify callback (src/unnamed/part_000 lines 187-212).
`fails` injects persistence errors: operation 0 is the `findOne`, operation
1 the `save`; any raised error is caught and surfaced as
`done(error, null)` with the store untouched. -/
def steamVerify (fails : List Bool) (p : SteamProfile) (now : Nat) (st : Store) :
    DoneResult × Store :=
  if opFails fails 0 then ((some 0, none), st) else
  match findBySteamId st.docs p.id with
  | none =>
      if opFails fails 1 then ((some 1, none), st)
      else ((none, some (newSteamUser st.nextUid p now)),
            saveNew st (newSteamUser st.nextUid p now))
  | some u0 =>
      if opFails fails 1 then ((some 1, none), st)
      else ((none, some (updSteamUser u0 p now)),
            saveExisting st (updSteamUser u0 p now))

/-- `` `${profile.username}#${profile.discriminator}` ``. -/
def discordDisplay (p : DiscordProfile) : String :=
  p.username ++ "#" ++ p.discriminator

/-- The mutation of the merge candidate on the account-linking path:
`user.discordId = ...; user.discordName = ...; user.discordAvatar = ...;
user.discordEmail = ...; user.isFullyAuthenticated = true` (no `lastLogin`
assignment appears on this path in the source). -/
def mergedDiscordUser (c0 : Identity) (p : DiscordProfile) : Identity :=
  { c0 with
    discordId := some p.id
    discordName := some (discordDisplay p)
    discordAvatar := p.avatar
    discordEmail := p.email
    isFullyAuthenticated := true }

/-- The document constructed by
`new User({ discordId, discordName, discordAvatar, discordEmail })`, with
the schema defaults of §3 for the remaining fields. -/
def newDiscordUser (uid : Nat) (p : DiscordProfile) (now : Nat) : Identity :=
  { uid := uid
    steamId := none, steamName := none
    steamAvatar := none, steamProfileUrl := none
    discordId := some p.id
    discordName := some (discordDisplay p)
    discordAvatar := p.avatar
    discordEmail := p.email
    isFullyAuthenticated := false
    lastLogin := none
    createdAt := now }

/-- The profile/`lastLogin` mutation of an existing user on a repeat
Discord login, before the `isFullyAuthenticated` recomputation. -/
def updDiscordUserBase (u0 : Identity) (p : DiscordProfile) (now : Nat) : Identity :=
  { u0 with
    discordName := some (discordDisplay p)
    discordAvatar := p.avatar
    discordEmail := p.email
    lastLogin := some now }

/-- The full mutation of an existing user on a repeat Discord login:
after the profile update, `if (user.steamId && user.discordId)
user.isFullyAuthenticated = true`. -/
def updDiscordUser (u0 : Identity) (p : DiscordProfile) (now : Nat) : Identity :=
  if (updDiscordUserBase u0 p now).steamId.isSome &&
     (updDiscordUserBase u0 p now).discordId.isSome
  then { updDiscordUserBase u0 p now with isFullyAuthenticated := true }
  else updDiscordUserBase u0 p now

/-- The DiscordStrategy verify callback (src/unnamed/part_000 lines
220-267).  Persistence operations in execution order: 0 the `findOne` by
`discordId`; on the miss branch 1 is the merge-candidate `findOne` and 2
the `save`; on the hit branch 1 is the `save`. -/
def discordVerify (fails : List Bool) (p : DiscordProfile) (now : Nat) (st : Store) :
    DoneResult × Store :=
  if opFails fails 0 then ((some 0, none), st) else
  match findByDiscordId st.docs p.id with
  | none =>
      if opFails fails 1 then ((some 1, none), st) else
      match mergeCandidate st.docs with
      | some c0 =>
          if opFails fails 2 then ((some 2, none), st)
          else ((none, some (mergedDiscordUser c0 p)),
                saveExisting st (mergedDiscordUser c0 p))
      | none =>
          if opFails fails 2 then ((some 2, none), st)
          else ((none, some (newDiscordUser st.nextUid p now)),
                saveNew st (newDiscordUser st.nextUid p now))
  | some u0 =>
      if opFails fails 1 then ((some 1, none), st)
      else ((none, some (updDiscordUser u0 p now)),
            saveExisting st (updDiscordUser u0 p now))

/-- One authentication callback arriving at the server, with its payload,
its wall-clock time and its injected persistence-failure schedule. -/
inductive AuthOp where
  | steam (fails : List Bool) (p : SteamProfile) (now : Nat)
  | discord (fails : List Bool) (p : DiscordProfile) (now : Nat)
  deriving DecidableEq, Repr

/-- Effect of one authentication callback on the store. -/
def applyOp (st : Store) (op : AuthOp) : Store :=
  match op with
  | .steam fails p now => (steamVerify fails p now st).2
  | .discord fails p now => (discordVerify fails p now st).2

/-- Effect of a finite sequence of authentication callbacks. -/
def runOps (st : Store) (ops : List AuthOp) : Store :=
  ops.foldl applyOp st

/-- `passport.deserializeUser` (src/unnamed/part_000 lines 273-280):
`User.findById(id)` then `done(null, user)`; a thrown lookup error (the
`fails` flag) is caught and surfaced as `done(error, null)`. -/
def deserializeUser (fails : Bool) (st : Store) (id : Nat) : DoneResult :=
  if fails then (some 0, none)
  else (none, st.docs.find? (fun u => decide (u.uid = id)))

/-- Response of `GET /api/user` (src/unnamed/part_000 lines 284-294). -/
inductive ApiUserResp where
  | notAuthenticated
  | userJson (id : Nat) (steamId : Option String) (steamName : Option String)
      (isFullyAuthenticated : Bool)
  deriving DecidableEq, Repr

/-- The `GET /api/user` handler applied to `req.user`. -/
def apiUser (reqUser : Option Identity) : ApiUserResp :=
  match reqUser with
  | none => ApiUserResp.notAuthenticated
  | some u => ApiUserResp.userJson u.uid u.steamId u.steamName u.isFullyAuthenticated

/-- `req.user` as passport computes it: `none` when the request carries no
session, otherwise the result of deserializing the stored durable id. -/
def sessionUser (st : Store) (sess : Option Nat) : Option Identity :=
  match sess with
  | none => none
  | some id => (deserializeUser false st id).2

/-! ### Helper lemmas about the store operations -/

theorem pickLatest_spec (x : Identity) (xs : List Identity) :
    (pickLatest x xs = x ∨ pickLatest x xs ∈ xs) ∧
    x.createdAt ≤ (pickLatest x xs).createdAt ∧
    ∀ y ∈ xs, y.createdAt ≤ (pickLatest x xs).createdAt := by
  induction xs generalizing x with
  | nil =>
    exact ⟨Or.inl rfl, Nat.le_refl _, by intro y hy; cases hy⟩
  | cons z zs ih =>
    have hstep : pickLatest x (z :: zs) =
        pickLatest (if x.createdAt < z.createdAt then z else x) zs := rfl
    obtain ⟨hmem, hle, hall⟩ := ih (if x.createdAt < z.createdAt then z else x)
    refine ⟨?_, ?_, ?_⟩
    · rw [hstep]
      rcases hmem with h | h
      · rw [h]
        by_cases hc : x.createdAt < z.createdAt
        · rw [if_pos hc]
          exact Or.inr (List.mem_cons_self z zs)
        · rw [if_neg hc]
          exact Or.inl rfl
      · exact Or.inr (List.mem_cons_of_mem _ h)
    · rw [hstep]
      refine Nat.le_trans ?_ hle
      by_cases hc : x.createdAt < z.createdAt
      · rw [if_pos hc]; exact Nat.le_of_lt hc
      · rw [if_neg hc]
    · intro y hy
      rw [hstep]
      rcases List.mem_cons.mp hy with h | h
      · subst h
        refine Nat.le_trans ?_ hle
        by_cases hc : x.createdAt < y.createdAt
        · rw [if_pos hc]
        · rw [if_neg hc]; exact Nat.le_of_not_lt hc
      · exact hall y h

theorem mergeCandidate_spec {docs : List Identity} {c : Identity}
    (h : mergeCandidate docs = some c) :
    c ∈ docs ∧ mergeMatch c = true ∧
    ∀ u ∈ docs, mergeMatch u = true → u.createdAt ≤ c.createdAt := by
  unfold mergeCandidate at h
  cases hf : docs.filter mergeMatch with
  | nil => rw [hf] at h; cases h
  | cons x xs =>
    rw [hf] at h
    have hc : pickLatest x xs = c := by injection h
    obtain ⟨hmem, hle, hall⟩ := pickLatest_spec x xs
    have hcons : c ∈ x :: xs := by
      rw [← hc]
      rcases hmem with h' | h'
      · rw [h']
        exact List.mem_cons_self x xs
      · exact List.mem_cons_of_mem _ h'
    have hcf : c ∈ docs.filter mergeMatch := hf ▸ hcons
    refine ⟨(List.mem_filter.mp hcf).1, (List.mem_filter.mp hcf).2, ?_⟩
    intro u hu hmu
    have huf : u ∈ docs.filter mergeMatch := List.mem_filter.mpr ⟨hu, hmu⟩
    rw [hf] at huf
    rcases List.mem_cons.mp huf with h' | h'
    · subst h'; exact hc ▸ hle
    · exact hc ▸ hall u h'

theorem mem_of_mem_saveExisting {st : Store} {u v : Identity}
    (hv : v ∈ (saveExisting st u).docs) : v = u ∨ v ∈ st.docs := by
  unfold saveExisting at hv
  simp only [List.mem_map] at hv
  obtain ⟨w, hw, hvw⟩ := hv
  by_cases h : w.uid = u.uid
  · rw [if_pos h] at hvw
    exact Or.inl hvw.symm
  · rw [if_neg h] at hvw
    exact Or.inr (hvw ▸ hw)

theorem saveExisting_mem_update {st : Store} {u0 u : Identity}
    (h0 : u0 ∈ st.docs) (huid : u.uid = u0.uid) : u ∈ (saveExisting st u).docs := by
  unfold saveExisting
  simp only [List.mem_map]
  exact ⟨u0, h0, by rw [if_pos huid.symm]⟩

theorem saveExisting_mem_other {st : Store} {u v : Identity}
    (hv : v ∈ st.docs) (hne : v.uid ≠ u.uid) : v ∈ (saveExisting st u).docs := by
  unfold saveExisting
  simp only [List.mem_map]
  exact ⟨v, hv, by rw [if_neg hne]⟩

theorem saveExisting_length (st : Store) (u : Identity) :
    (saveExisting st u).docs.length = st.docs.length :=
  List.length_map _ _

theorem uidList_saveExisting (st : Store) (u : Identity) :
    (saveExisting st u).docs.map (fun v => v.uid) = st.docs.map (fun v => v.uid) := by
  unfold saveExisting
  rw [List.map_map]
  apply List.map_congr_left
  intro a _
  simp only [Function.comp_apply]
  by_cases h : a.uid = u.uid
  · rw [if_pos h, h]
  · rw [if_neg h]

/-- Well-formedness of the store: document ids are pairwise distinct and
below the fresh-id counter.  This holds for every store reachable from
`emptyStore` and is what makes `_id`-keyed replacement well behaved. -/
structure StoreWF (st : Store) : Prop where
  nodup : (st.docs.map (fun u => u.uid)).Nodup
  bound : ∀ u ∈ st.docs, u.uid < st.nextUid

theorem storeWF_empty : StoreWF emptyStore :=
  ⟨List.nodup_nil, by intro u hu; cases hu⟩

theorem StoreWF.uid_inj {st : Store} (h : StoreWF st) :
    ∀ u ∈ st.docs, ∀ v ∈ st.docs, u.uid = v.uid → u = v := by
  intro u hu v hv huv
  exact List.inj_on_of_nodup_map h.nodup hu hv huv

theorem storeWF_saveExisting {st : Store} (h : StoreWF st) (u : Identity)
    (hu : u.uid < st.nextUid) : StoreWF (saveExisting st u) := by
  refine ⟨?_, ?_⟩
  · rw [uidList_saveExisting]
    exact h.nodup
  · intro v hv
    rcases mem_of_mem_saveExisting hv with rfl | hv'
    · exact hu
    · exact h.bound v hv'

theorem storeWF_saveNew {st : Store} (h : StoreWF st) (u : Identity)
    (hu : u.uid = st.nextUid) : StoreWF (saveNew st u) := by
  refine ⟨?_, ?_⟩
  · unfold saveNew
    simp only [List.map_append, List.map_cons, List.map_nil]
    rw [List.nodup_append]
    refine ⟨h.nodup, List.nodup_singleton _, ?_⟩
    intro a ha hb
    simp only [List.mem_singleton] at hb
    obtain ⟨w, hw, hwa⟩ := List.mem_map.mp ha
    have := h.bound w hw
    omega
  · intro v hv
    unfold saveNew at hv
    rcases List.mem_append.mp hv with hv' | hv'
    · exact Nat.lt_succ_of_lt (h.bound v hv')
    · simp only [List.mem_singleton] at hv'
      subst hv'
      show v.uid < st.nextUid + 1
      omega

theorem opFails_nil (k : Nat) : opFails [] k = false := by
  cases k <;> rfl

theorem updDiscordUser_uid (u0 : Identity) (p : DiscordProfile) (now : Nat) :
    (updDiscordUser u0 p now).uid = u0.uid := by
  unfold updDiscordUser
  split <;> rfl

theorem updDiscordUser_steamId (u0 : Identity) (p : DiscordProfile) (now : Nat) :
    (updDiscordUser u0 p now).steamId = u0.steamId := by
  unfold updDiscordUser
  split <;> rfl

theorem updDiscordUser_discordId (u0 : Identity) (p : DiscordProfile) (now : Nat) :
    (updDiscordUser u0 p now).discordId = u0.discordId := by
  unfold updDiscordUser
  split <;> rfl

theorem updDiscordUser_lastLogin (u0 : Identity) (p : DiscordProfile) (now : Nat) :
    (updDiscordUser u0 p now).lastLogin = some now := by
  unfold updDiscordUser
  split <;> rfl

theorem updDiscordUser_profile (u0 : Identity) (p : DiscordProfile) (now : Nat) :
    (updDiscordUser u0 p now).discordName = some (discordDisplay p) ∧
    (updDiscordUser u0 p now).discordAvatar = p.avatar ∧
    (updDiscordUser u0 p now).discordEmail = p.email := by
  unfold updDiscordUser
  split <;> exact ⟨rfl, rfl, rfl⟩

theorem updDiscordUser_auth (u0 : Identity) (p : DiscordProfile) (now : Nat)
    (h : u0.isFullyAuthenticated = (u0.steamId.isSome && u0.discordId.isSome)) :
    (updDiscordUser u0 p now).isFullyAuthenticated =
      ((updDiscordUser u0 p now).steamId.isSome &&
       (updDiscordUser u0 p now).discordId.isSome) := by
  unfold updDiscordUser
  split
  next hc => simpa using hc.symm
  next hc => simpa [updDiscordUserBase] using h

/-- Exhaustive case analysis of one Steam verify-callback execution. -/
theorem steamVerify_cases (fails : List Bool) (p : SteamProfile) (now : Nat) (st : Store) :
    ((steamVerify fails p now st).1.2 = none ∧ (steamVerify fails p now st).2 = st ∧
      ∃ k, (steamVerify fails p now st).1.1 = some k) ∨
    (findBySteamId st.docs p.id = none ∧
      steamVerify fails p now st =
        ((none, some (newSteamUser st.nextUid p now)),
          saveNew st (newSteamUser st.nextUid p now))) ∨
    (∃ u0, findBySteamId st.docs p.id = some u0 ∧
      steamVerify fails p now st =
        ((none, some (updSteamUser u0 p now)),
          saveExisting st (updSteamUser u0 p now))) := by
  unfold steamVerify
  split
  · exact Or.inl ⟨rfl, rfl, 0, rfl⟩
  · split
    next hf =>
      split
      · exact Or.inl ⟨rfl, rfl, 1, rfl⟩
      · exact Or.inr (Or.inl ⟨hf, rfl⟩)
    next u0 hf =>
      split
      · exact Or.inl ⟨rfl, rfl, 1, rfl⟩
      · exact Or.inr (Or.inr ⟨u0, hf, rfl⟩)

/-- Exhaustive case analysis of one Discord verify-callback execution. -/
theorem discordVerify_cases (fails : List Bool) (p : DiscordProfile) (now : Nat) (st : Store) :
    ((discordVerify fails p now st).1.2 = none ∧ (discordVerify fails p now st).2 = st ∧
      ∃ k, (discordVerify fails p now st).1.1 = some k) ∨
    (findByDiscordId st.docs p.id = none ∧ ∃ c0, mergeCandidate st.docs = some c0 ∧
      discordVerify fails p now st =
        ((none, some (mergedDiscordUser c0 p)), saveExisting st (mergedDiscordUser c0 p))) ∨
    (findByDiscordId st.docs p.id = none ∧ mergeCandidate st.docs = none ∧
      discordVerify fails p now st =
        ((none, some (newDiscordUser st.nextUid p now)),
          saveNew st (newDiscordUser st.nextUid p now))) ∨
    (∃ u0, findByDiscordId st.docs p.id = some u0 ∧
      discordVerify fails p now st =
        ((none, some (updDiscordUser u0 p now)),
          saveExisting st (updDiscordUser u0 p now))) := by
  unfold discordVerify
  split
  · exact Or.inl ⟨rfl, rfl, 0, rfl⟩
  · split
    next hf =>
      split
      · exact Or.inl ⟨rfl, rfl, 1, rfl⟩
      · split
        next c0 hm =>
          split
          · exact Or.inl ⟨rfl, rfl, 2, rfl⟩
          · exact Or.inr (Or.inl ⟨hf, c0, hm, rfl⟩)
        next hm =>
          split
          · exact Or.inl ⟨rfl, rfl, 2, rfl⟩
          · exact Or.inr (Or.inr (Or.inl ⟨hf, hm, rfl⟩))
    next u0 hf =>
      split
      · exact Or.inl ⟨rfl, rfl, 1, rfl⟩
      · exact Or.inr (Or.inr (Or.inr ⟨u0, hf, rfl⟩))

theorem findBySteamId_mem {docs : List Identity} {s : String} {u0 : Identity}
    (h : findBySteamId docs s = some u0) : u0 ∈ docs ∧ u0.steamId = some s := by
  unfold findBySteamId at h
  refine ⟨List.mem_of_find?_eq_some h, ?_⟩
  have hp := List.find?_some h
  simpa using hp

theorem findByDiscordId_mem {docs : List Identity} {d : String} {u0 : Identity}
    (h : findByDiscordId docs d = some u0) : u0 ∈ docs ∧ u0.discordId = some d := by
  unfold findByDiscordId at h
  refine ⟨List.mem_of_find?_eq_some h, ?_⟩
  have hp := List.find?_some h
  simpa using hp

theorem storeWF_applyOp {st : Store} (h : StoreWF st) (op : AuthOp) :
    StoreWF (applyOp st op) := by
  cases op with
  | steam fails p now =>
    show StoreWF (steamVerify fails p now st).2
    rcases steamVerify_cases fails p now st with ⟨_, h2, _⟩ | ⟨hf, he⟩ | ⟨u0, hf, he⟩
    · rw [h2]; exact h
    · rw [he]
      exact storeWF_saveNew h _ rfl
    · rw [he]
      exact storeWF_saveExisting h _ (h.bound u0 (findBySteamId_mem hf).1)
  | discord fails p now =>
    show StoreWF (discordVerify fails p now st).2
    rcases discordVerify_cases fails p now st with
      ⟨_, h2, _⟩ | ⟨hf, c0, hm, he⟩ | ⟨hf, hm, he⟩ | ⟨u0, hf, he⟩
    · rw [h2]; exact h
    · rw [he]
      exact storeWF_saveExisting h _ (h.bound c0 (mergeCandidate_spec hm).1)
    · rw [he]
      exact storeWF_saveNew h _ rfl
    · rw [he]
      refine storeWF_saveExisting h _ ?_
      rw [updDiscordUser_uid]
      exact h.bound u0 (findByDiscordId_mem hf).1

theorem storeWF_runOps_of {st : Store} (h : StoreWF st) (ops : List AuthOp) :
    StoreWF (runOps st ops) := by
  induction ops generalizing st with
  | nil => exact h
  | cons op ops ih => exact ih (storeWF_applyOp h op)

/-- The `isFullyAuthenticated` invariant of §3: the flag agrees with
"both provider keys set" on every document of the store. -/
def storeAuthCorrect (st : Store) : Prop :=
  ∀ u ∈ st.docs, u.isFullyAuthenticated = (u.steamId.isSome && u.discordId.isSome)

theorem storeAuthCorrect_empty : storeAuthCorrect emptyStore := by
  intro u hu; cases hu

theorem storeAuthCorrect_applyOp {st : Store} (h : storeAuthCorrect st) (op : AuthOp) :
    storeAuthCorrect (applyOp st op) := by
  cases op with
  | steam fails p now =>
    show storeAuthCorrect (steamVerify fails p now st).2
    rcases steamVerify_cases fails p now st with ⟨_, h2, _⟩ | ⟨hf, he⟩ | ⟨u0, hf, he⟩
    · rw [h2]; exact h
    · rw [he]
      intro v hv
      have hv2 : v ∈ st.docs ++ [newSteamUser st.nextUid p now] := hv
      rcases List.mem_append.mp hv2 with hv' | hv'
      · exact h v hv'
      · simp only [List.mem_singleton] at hv'
        subst hv'
        rfl
    · rw [he]
      intro v hv
      rcases mem_of_mem_saveExisting hv with rfl | hv'
      · exact h u0 (findBySteamId_mem hf).1
      · exact h v hv'
  | discord fails p now =>
    show storeAuthCorrect (discordVerify fails p now st).2
    rcases discordVerify_cases fails p now st with
      ⟨_, h2, _⟩ | ⟨hf, c0, hm, he⟩ | ⟨hf, hm, he⟩ | ⟨u0, hf, he⟩
    · rw [h2]; exact h
    · rw [he]
      intro v hv
      rcases mem_of_mem_saveExisting hv with rfl | hv'
      · have hmm : mergeMatch c0 = true := (mergeCandidate_spec hm).2.1
        unfold mergeMatch at hmm
        have hsome : c0.steamId.isSome = true := (Bool.and_eq_true_iff.mp hmm).1
        show true = (c0.steamId.isSome && (some p.id).isSome)
        rw [hsome]
        rfl
      · exact h v hv'
    · rw [he]
      intro v hv
      have hv2 : v ∈ st.docs ++ [newDiscordUser st.nextUid p now] := hv
      rcases List.mem_append.mp hv2 with hv' | hv'
      · exact h v hv'
      · simp only [List.mem_singleton] at hv'
        subst hv'
        rfl
    · rw [he]
      intro v hv
      rcases mem_of_mem_saveExisting hv with rfl | hv'
      · exact updDiscordUser_auth u0 p now (h u0 (findByDiscordId_mem hf).1)
      · exact h v hv'

theorem storeAuthCorrect_runOps_of {st : Store} (h : storeAuthCorrect st)
    (ops : List AuthOp) : storeAuthCorrect (runOps st ops) := by
  induction ops generalizing st with
  | nil => exact h
  | cons op ops ih => exact ih (storeAuthCorrect_applyOp h op)

/-- Every document survives an authentication operation: some document
with the same `_id` and the same `steamId` is still present afterwards. -/
theorem applyOp_uid_persists {st : Store} (hwf : StoreWF st) (op : AuthOp)
    {u : Identity} (hu : u ∈ st.docs) :
    ∃ u' ∈ (applyOp st op).docs, u'.uid = u.uid ∧ u'.steamId = u.steamId := by
  cases op with
  | steam fails p now =>
    show ∃ u' ∈ (steamVerify fails p now st).2.docs, u'.uid = u.uid ∧ u'.steamId = u.steamId
    rcases steamVerify_cases fails p now st with ⟨_, h2, _⟩ | ⟨hf, he⟩ | ⟨u0, hf, he⟩
    · rw [h2]; exact ⟨u, hu, rfl, rfl⟩
    · rw [he]
      refine ⟨u, ?_, rfl, rfl⟩
      show u ∈ st.docs ++ [newSteamUser st.nextUid p now]
      exact List.mem_append_left _ hu
    · rw [he]
      by_cases hc : u.uid = u0.uid
      · have hu0 : u0 ∈ st.docs := (findBySteamId_mem hf).1
        have : u = u0 := hwf.uid_inj u hu u0 hu0 hc
        subst this
        exact ⟨updSteamUser u p now, saveExisting_mem_update hu rfl, rfl, rfl⟩
      · exact ⟨u, saveExisting_mem_other hu hc, rfl, rfl⟩
  | discord fails p now =>
    show ∃ u' ∈ (discordVerify fails p now st).2.docs, u'.uid = u.uid ∧ u'.steamId = u.steamId
    rcases discordVerify_cases fails p now st with
      ⟨_, h2, _⟩ | ⟨hf, c0, hm, he⟩ | ⟨hf, hm, he⟩ | ⟨u0, hf, he⟩
    · rw [h2]; exact ⟨u, hu, rfl, rfl⟩
    · rw [he]
      by_cases hc : u.uid = c0.uid
      · have hc0 : c0 ∈ st.docs := (mergeCandidate_spec hm).1
        have : u = c0 := hwf.uid_inj u hu c0 hc0 hc
        subst this
        exact ⟨mergedDiscordUser u p, saveExisting_mem_update hu rfl, rfl, rfl⟩
      · exact ⟨u, saveExisting_mem_other hu hc, rfl, rfl⟩
    · rw [he]
      refine ⟨u, ?_, rfl, rfl⟩
      show u ∈ st.docs ++ [newDiscordUser st.nextUid p now]
      exact List.mem_append_left _ hu
    · rw [he]
      by_cases hc : u.uid = u0.uid
      · have hu0 : u0 ∈ st.docs := (findByDiscordId_mem hf).1
        have : u = u0 := hwf.uid_inj u hu u0 hu0 hc
        subst this
        refine ⟨updDiscordUser u p now, ?_, updDiscordUser_uid u p now, updDiscordUser_steamId u p now⟩
        exact saveExisting_mem_update hu (updDiscordUser_uid u p now)
      · refine ⟨u, saveExisting_mem_other hu ?_, rfl, rfl⟩
        rw [updDiscordUser_uid]
        exact hc

theorem runOps_uid_persists {st : Store} (hwf : StoreWF st) (ops : List AuthOp)
    {u : Identity} (hu : u ∈ st.docs) :
    ∃ u' ∈ (runOps st ops).docs, u'.uid = u.uid ∧ u'.steamId = u.steamId := by
  induction ops generalizing st u with
  | nil => exact ⟨u, hu, rfl, rfl⟩
  | cons op ops ih =>
    obtain ⟨u1, h1, hu1, hs1⟩ := applyOp_uid_persists hwf op hu
    obtain ⟨u', h', hu', hs'⟩ := ih (storeWF_applyOp hwf op) h1
    exact ⟨u', h', hu'.trans hu1, hs'.trans hs1⟩

theorem findBySteamId_append_new {docs : List Identity} {p : SteamProfile} {u : Identity}
    (hf : findBySteamId docs p.id = none) (hu : u.steamId = some p.id) :
    findBySteamId (docs ++ [u]) p.id = some u := by
  unfold findBySteamId at hf ⊢
  rw [List.find?_append, hf]
  simp [hu]

theorem findByDiscordId_append_new {docs : List Identity} {p : DiscordProfile} {u : Identity}
    (hf : findByDiscordId docs p.id = none) (hu : u.discordId = some p.id) :
    findByDiscordId (docs ++ [u]) p.id = some u := by
  unfold findByDiscordId at hf ⊢
  rw [List.find?_append, hf]
  simp [hu]

theorem find_replace_aux (p : DiscordProfile) (m : Identity)
    (hm : m.discordId = some p.id) :
    ∀ docs : List Identity,
      (∀ w ∈ docs, w.discordId ≠ some p.id) →
      (∃ w ∈ docs, w.uid = m.uid) →
      List.find? (fun u => decide (u.discordId = some p.id))
        (docs.map (fun v => if v.uid = m.uid then m else v)) = some m := by
  intro docs
  induction docs with
  | nil =>
    intro _ hex
    obtain ⟨w, hw, _⟩ := hex
    cases hw
  | cons a as ih =>
    intro hno hex
    simp only [List.map_cons]
    by_cases ha : a.uid = m.uid
    · rw [if_pos ha]
      exact List.find?_cons_of_pos _ (by simp [hm])
    · rw [if_neg ha]
      have hpb : decide (a.discordId = some p.id) = false := by
        simpa using hno a (List.mem_cons_self a as)
      rw [List.find?_cons]
      simp only [hpb]
      apply ih
      · intro w hw
        exact hno w (List.mem_cons_of_mem _ hw)
      · obtain ⟨w, hw, hwu⟩ := hex
        rcases List.mem_cons.mp hw with h' | hw'
        · exact absurd (h' ▸ hwu) ha
        · exact ⟨w, hw', hwu⟩

/-- After replacing, by `_id`, an existing document with one carrying
`discordId = p.id` in a store that had no match for `p.id`, the Discord
lookup finds exactly the replacement document. -/
theorem findByDiscordId_replace {st : Store} {p : DiscordProfile} {m : Identity}
    (hno : findByDiscordId st.docs p.id = none)
    (hm : m.discordId = some p.id)
    (hex : ∃ w ∈ st.docs, w.uid = m.uid) :
    findByDiscordId (saveExisting st m).docs p.id = some m := by
  unfold findByDiscordId at hno
  rw [List.find?_eq_none] at hno
  show List.find? (fun u => decide (u.discordId = some p.id))
    (st.docs.map (fun v => if v.uid = m.uid then m else v)) = some m
  apply find_replace_aux p m hm st.docs
  · intro w hw
    simpa using hno w hw
  · exact hex

/-! ### Concrete payloads and stores used by witnesses and counterexamples -/

def spA : SteamProfile := ⟨"steamA", "Alice", some "avA", "urlA"⟩

def spA2 : SteamProfile := ⟨"steamA", "Alice2", some "avA2", "urlA2"⟩

def spB : SteamProfile := ⟨"steamB", "Bob", none, "urlB"⟩

def dpX : DiscordProfile := ⟨"discX", "xena", "0042", some "davX", some "x@example.com"⟩

/-- A store with two Steam-only identities: A created at time 1, B at time 2. -/
def stAB : Store := runOps emptyStore [.steam [] spA 1, .steam [] spB 2]

/-- A store with one Steam-only identity created at time 5. -/
def stA : Store := (steamVerify [] spA 5 emptyStore).2

/-! ### Claim theorems -/

/-- C1: on a Discord authentication whose external id matches no existing
Identity's `discordId`, the merge candidate, when selected, is a stored
identity with `steamId` set and `discordId` unset whose creation time is
maximal among all such identities; with two Steam-only identities the one
with the strictly later creation time is selected.  The query returns an
`Option Identity`, so at most one candidate is ever selected. -/
theorem merge_candidate_most_recent (p : DiscordProfile) (st : Store) (c : Identity)
    (hno : findByDiscordId st.docs p.id = none)
    (hc : mergeCandidate st.docs = some c) :
    (c ∈ st.docs ∧ c.steamId.isSome = true ∧ c.discordId = none ∧
      ∀ u ∈ st.docs, u.steamId.isSome = true → u.discordId = none →
        u.createdAt ≤ c.createdAt) ∧
    ∀ a b : Identity, a.steamId.isSome = true → a.discordId = none →
      b.steamId.isSome = true → b.discordId = none →
      a.createdAt < b.createdAt → mergeCandidate [a, b] = some b := by
  obtain ⟨hmem, hmm, hmax⟩ := mergeCandidate_spec hc
  unfold mergeMatch at hmm
  obtain ⟨hs, hd⟩ := Bool.and_eq_true_iff.mp hmm
  refine ⟨⟨hmem, hs, Option.isNone_iff_eq_none.mp hd, ?_⟩, ?_⟩
  · intro u hu hus hud
    apply hmax u hu
    unfold mergeMatch
    rw [hus, hud]
    rfl
  · intro a b has had hbs hbd hlt
    have hma : mergeMatch a = true := by unfold mergeMatch; rw [has, had]; rfl
    have hmb : mergeMatch b = true := by unfold mergeMatch; rw [hbs, hbd]; rfl
    unfold mergeCandidate
    rw [show List.filter mergeMatch [a, b] = [a, b] by
      rw [List.filter_cons_of_pos hma, List.filter_cons_of_pos hmb, List.filter_nil]]
    show some (pickLatest a [b]) = some b
    unfold pickLatest
    simp only [List.foldl_cons, List.foldl_nil]
    rw [if_pos hlt]

theorem merge_candidate_most_recent_witness :
    ((newSteamUser 1 spB 2 ∈ stAB.docs ∧
      (newSteamUser 1 spB 2).steamId.isSome = true ∧
      (newSteamUser 1 spB 2).discordId = none ∧
      ∀ u ∈ stAB.docs, u.steamId.isSome = true → u.discordId = none →
        u.createdAt ≤ (newSteamUser 1 spB 2).createdAt) ∧
    ∀ a b : Identity, a.steamId.isSome = true → a.discordId = none →
      b.steamId.isSome = true → b.discordId = none →
      a.createdAt < b.createdAt → mergeCandidate [a, b] = some b) :=
  merge_candidate_most_recent dpX stAB (newSteamUser 1 spB 2) (by decide) (by decide)

/-- C2: on a Discord authentication with an unseen external id for which a
merge candidate exists, the flow reports no error, resolves exactly the
candidate updated with `discordId := externalId`, the Discord profile
fields and `isFullyAuthenticated := true`, stores that updated document,
and leaves the total number of Identity records unchanged. -/
theorem discord_merge_links_candidate (p : DiscordProfile) (now : Nat) (st : Store)
    (c : Identity) (hno : findByDiscordId st.docs p.id = none)
    (hc : mergeCandidate st.docs = some c) :
    (discordVerify [] p now st).1.1 = none ∧
    (discordVerify [] p now st).1.2 = some (mergedDiscordUser c p) ∧
    mergedDiscordUser c p ∈ (discordVerify [] p now st).2.docs ∧
    (mergedDiscordUser c p).discordId = some p.id ∧
    (mergedDiscordUser c p).discordName = some (discordDisplay p) ∧
    (mergedDiscordUser c p).discordAvatar = p.avatar ∧
    (mergedDiscordUser c p).discordEmail = p.email ∧
    (mergedDiscordUser c p).isFullyAuthenticated = true ∧
    (discordVerify [] p now st).2.docs.length = st.docs.length := by
  have he : discordVerify [] p now st =
      ((none, some (mergedDiscordUser c p)), saveExisting st (mergedDiscordUser c p)) := by
    simp [discordVerify, opFails_nil, hno, hc]
  refine ⟨by rw [he], by rw [he], ?_, rfl, rfl, rfl, rfl, rfl, ?_⟩
  · rw [he]
    exact saveExisting_mem_update (mergeCandidate_spec hc).1 rfl
  · rw [he]
    exact saveExisting_length st _

theorem discord_merge_links_candidate_witness :
    (discordVerify [] dpX 3 stAB).1.1 = none ∧
    (discordVerify [] dpX 3 stAB).1.2 = some (mergedDiscordUser (newSteamUser 1 spB 2) dpX) ∧
    mergedDiscordUser (newSteamUser 1 spB 2) dpX ∈ (discordVerify [] dpX 3 stAB).2.docs ∧
    (mergedDiscordUser (newSteamUser 1 spB 2) dpX).discordId = some dpX.id ∧
    (mergedDiscordUser (newSteamUser 1 spB 2) dpX).discordName = some (discordDisplay dpX) ∧
    (mergedDiscordUser (newSteamUser 1 spB 2) dpX).discordAvatar = dpX.avatar ∧
    (mergedDiscordUser (newSteamUser 1 spB 2) dpX).discordEmail = dpX.email ∧
    (mergedDiscordUser (newSteamUser 1 spB 2) dpX).isFullyAuthenticated = true ∧
    (discordVerify [] dpX 3 stAB).2.docs.length = stAB.docs.length :=
  discord_merge_links_candidate dpX 3 stAB (newSteamUser 1 spB 2) (by decide) (by decide)

/-- C3: after any finite sequence of Steam and Discord authentication
operations starting from the empty store (persistence failures included),
every stored Identity's `isFullyAuthenticated` flag equals "both `steamId`
and `discordId` are set": identities with both keys have it `true`, all
others have it `false`. -/
theorem fully_authenticated_iff_both_keys (ops : List AuthOp) :
    ∀ u ∈ (runOps emptyStore ops).docs,
      u.isFullyAuthenticated = (u.steamId.isSome && u.discordId.isSome) :=
  storeAuthCorrect_runOps_of storeAuthCorrect_empty ops

theorem fully_authenticated_iff_both_keys_witness :
    (mergedDiscordUser (newSteamUser 0 spA 1) dpX).isFullyAuthenticated =
      ((mergedDiscordUser (newSteamUser 0 spA 1) dpX).steamId.isSome &&
       (mergedDiscordUser (newSteamUser 0 spA 1) dpX).discordId.isSome) :=
  fully_authenticated_iff_both_keys [.steam [] spA 1, .discord [] dpX 2]
    (mergedDiscordUser (newSteamUser 0 spA 1) dpX) (by decide)

/-- C4: a Steam authentication whose external id matches an existing
Identity's `steamId` reports no error, creates no new record (count
unchanged), resolves the matched identity with `lastLogin` advanced to the
current time and `discordId` and `isFullyAuthenticated` untouched, and
leaves every other stored Identity unchanged in place. -/
theorem steam_known_id_frame (p : SteamProfile) (now : Nat) (st : Store) (u0 : Identity)
    (hf : findBySteamId st.docs p.id = some u0) :
    (steamVerify [] p now st).1.1 = none ∧
    (steamVerify [] p now st).1.2 = some (updSteamUser u0 p now) ∧
    (updSteamUser u0 p now).lastLogin = some now ∧
    (updSteamUser u0 p now).discordId = u0.discordId ∧
    (updSteamUser u0 p now).isFullyAuthenticated = u0.isFullyAuthenticated ∧
    (steamVerify [] p now st).2.docs.length = st.docs.length ∧
    ∀ v ∈ st.docs, v.uid ≠ u0.uid → v ∈ (steamVerify [] p now st).2.docs := by
  have he : steamVerify [] p now st =
      ((none, some (updSteamUser u0 p now)), saveExisting st (updSteamUser u0 p now)) := by
    simp [steamVerify, opFails_nil, hf]
  refine ⟨by rw [he], by rw [he], rfl, rfl, rfl, ?_, ?_⟩
  · rw [he]
    exact saveExisting_length st _
  · intro v hv hne
    rw [he]
    exact saveExisting_mem_other hv hne

theorem steam_known_id_frame_witness :
    (steamVerify [] spA2 9 stAB).1.1 = none ∧
    (steamVerify [] spA2 9 stAB).1.2 = some (updSteamUser (newSteamUser 0 spA 1) spA2 9) ∧
    (updSteamUser (newSteamUser 0 spA 1) spA2 9).lastLogin = some 9 ∧
    (updSteamUser (newSteamUser 0 spA 1) spA2 9).discordId = (newSteamUser 0 spA 1).discordId ∧
    (updSteamUser (newSteamUser 0 spA 1) spA2 9).isFullyAuthenticated =
      (newSteamUser 0 spA 1).isFullyAuthenticated ∧
    (steamVerify [] spA2 9 stAB).2.docs.length = stAB.docs.length ∧
    ∀ v ∈ stAB.docs, v.uid ≠ (newSteamUser 0 spA 1).uid →
      v ∈ (steamVerify [] spA2 9 stAB).2.docs :=
  steam_known_id_frame spA2 9 stAB (newSteamUser 0 spA 1) (by decide)

/-- C9: a Steam authentication whose external id matches no existing
Identity's `steamId` reports no error and appends exactly one new Identity
carrying `steamId = externalId`, the Steam profile fields from the payload,
`isFullyAuthenticated = false` and no `discordId`. -/
theorem steam_unseen_creates (p : SteamProfile) (now : Nat) (st : Store)
    (hf : findBySteamId st.docs p.id = none) :
    (steamVerify [] p now st).1.1 = none ∧
    (steamVerify [] p now st).1.2 = some (newSteamUser st.nextUid p now) ∧
    (steamVerify [] p now st).2.docs = st.docs ++ [newSteamUser st.nextUid p now] ∧
    (steamVerify [] p now st).2.docs.length = st.docs.length + 1 ∧
    (newSteamUser st.nextUid p now).steamId = some p.id ∧
    (newSteamUser st.nextUid p now).steamName = some p.displayName ∧
    (newSteamUser st.nextUid p now).steamAvatar = p.photo ∧
    (newSteamUser st.nextUid p now).steamProfileUrl = some p.profileurl ∧
    (newSteamUser st.nextUid p now).isFullyAuthenticated = false ∧
    (newSteamUser st.nextUid p now).discordId = none := by
  have he : steamVerify [] p now st =
      ((none, some (newSteamUser st.nextUid p now)),
        saveNew st (newSteamUser st.nextUid p now)) := by
    simp [steamVerify, opFails_nil, hf]
  refine ⟨by rw [he], by rw [he], by rw [he]; rfl, ?_, rfl, rfl, rfl, rfl, rfl, rfl⟩
  rw [he]
  show (st.docs ++ [newSteamUser st.nextUid p now]).length = st.docs.length + 1
  simp

theorem steam_unseen_creates_witness :
    (steamVerify [] spB 2 stA).1.1 = none ∧
    (steamVerify [] spB 2 stA).1.2 = some (newSteamUser stA.nextUid spB 2) ∧
    (steamVerify [] spB 2 stA).2.docs = stA.docs ++ [newSteamUser stA.nextUid spB 2] ∧
    (steamVerify [] spB 2 stA).2.docs.length = stA.docs.length + 1 ∧
    (newSteamUser stA.nextUid spB 2).steamId = some spB.id ∧
    (newSteamUser stA.nextUid spB 2).steamName = some spB.displayName ∧
    (newSteamUser stA.nextUid spB 2).steamAvatar = spB.photo ∧
    (newSteamUser stA.nextUid spB 2).steamProfileUrl = some spB.profileurl ∧
    (newSteamUser stA.nextUid spB 2).isFullyAuthenticated = false ∧
    (newSteamUser stA.nextUid spB 2).discordId = none :=
  steam_unseen_creates spB 2 stA (by decide)

/-- C10: linking is one-directional — under every operation sequence from
the empty store, an Identity present at some intermediate state with
`steamId` unset (in particular one created Discord-only) still has
`steamId` unset in the document with its `_id` after any further
operations: the Steam flow never merges into an existing record that lacks
a `steamId`. -/
theorem discord_only_never_gains_steamId (ops more : List AuthOp) (u v : Identity)
    (hu : u ∈ (runOps emptyStore ops).docs) (hs : u.steamId = none)
    (hv : v ∈ (runOps (runOps emptyStore ops) more).docs) (hvu : v.uid = u.uid) :
    v.steamId = none := by
  have hwf1 := storeWF_runOps_of storeWF_empty ops
  obtain ⟨u', h', huid, hsid⟩ := runOps_uid_persists hwf1 more hu
  have hwf2 := storeWF_runOps_of hwf1 more
  have hv' : v = u' := hwf2.uid_inj v hv u' h' (by rw [hvu, huid])
  rw [hv', hsid, hs]

theorem discord_only_never_gains_steamId_witness :
    (newDiscordUser 0 dpX 1).steamId = none :=
  discord_only_never_gains_steamId [.discord [] dpX 1] [.steam [] spA 2]
    (newDiscordUser 0 dpX 1) (newDiscordUser 0 dpX 1)
    (by decide) (by decide) (by decide) (by decide)

/-- C5 counterexample: a second Steam login for the same external id with a
different `profileurl` in the payload resolves an identity whose
`steamProfileUrl` still holds the first payload's value, not the latest
one — the repeat-login branch does not overwrite `steamProfileUrl`. -/
theorem steam_profile_overwrite_counterexample :
    (steamVerify [] spA2 2 (steamVerify [] spA 1 emptyStore).2).1.2 =
      some (updSteamUser (newSteamUser 0 spA 1) spA2 2) ∧
    (updSteamUser (newSteamUser 0 spA 1) spA2 2).steamProfileUrl = some "urlA" ∧
    spA2.profileurl = "urlA2" ∧
    (updSteamUser (newSteamUser 0 spA 1) spA2 2).steamProfileUrl ≠ some spA2.profileurl := by
  decide

/-- C5 amended: on a Steam authentication resolving an existing identity,
the display name and avatar are overwritten with the payload but the
profile URL keeps its stored value (it is populated only at creation); on
every Discord authentication the resolved identity's display name, avatar
and email equal the payload; repeating the same Steam login twice with
identical payloads still yields exactly one new Identity whose Steam
profile fields (profile URL included) equal the payload; and repeating the
same Discord login twice with identical payloads resolves the very record
stored by the first login, with Discord profile fields equal to the
payload and no second record created. -/
theorem profile_fields_overwrite_amended :
    (∀ (p : SteamProfile) (now : Nat) (st : Store) (u0 : Identity),
      findBySteamId st.docs p.id = some u0 →
      (steamVerify [] p now st).1.2 = some (updSteamUser u0 p now) ∧
      (updSteamUser u0 p now).steamName = some p.displayName ∧
      (updSteamUser u0 p now).steamAvatar = p.photo ∧
      (updSteamUser u0 p now).steamProfileUrl = u0.steamProfileUrl) ∧
    (∀ (p : DiscordProfile) (now : Nat) (st : Store) (u : Identity),
      (discordVerify [] p now st).1.2 = some u →
      u.discordName = some (discordDisplay p) ∧
      u.discordAvatar = p.avatar ∧ u.discordEmail = p.email) ∧
    (∀ (p : SteamProfile) (t1 t2 : Nat) (st : Store),
      findBySteamId st.docs p.id = none →
      (steamVerify [] p t2 (steamVerify [] p t1 st).2).1.2 =
        some (updSteamUser (newSteamUser st.nextUid p t1) p t2) ∧
      (updSteamUser (newSteamUser st.nextUid p t1) p t2).steamId = some p.id ∧
      (updSteamUser (newSteamUser st.nextUid p t1) p t2).steamName = some p.displayName ∧
      (updSteamUser (newSteamUser st.nextUid p t1) p t2).steamAvatar = p.photo ∧
      (updSteamUser (newSteamUser st.nextUid p t1) p t2).steamProfileUrl =
        some p.profileurl ∧
      (steamVerify [] p t2 (steamVerify [] p t1 st).2).2.docs.length =
        st.docs.length + 1) ∧
    (∀ (p : DiscordProfile) (t1 t2 : Nat) (st : Store) (r1 : Identity),
      findByDiscordId st.docs p.id = none →
      (discordVerify [] p t1 st).1.2 = some r1 →
      findByDiscordId (discordVerify [] p t1 st).2.docs p.id = some r1 ∧
      (discordVerify [] p t2 (discordVerify [] p t1 st).2).1.2 =
        some (updDiscordUser r1 p t2) ∧
      (updDiscordUser r1 p t2).uid = r1.uid ∧
      (updDiscordUser r1 p t2).discordId = some p.id ∧
      (updDiscordUser r1 p t2).discordName = some (discordDisplay p) ∧
      (updDiscordUser r1 p t2).discordAvatar = p.avatar ∧
      (updDiscordUser r1 p t2).discordEmail = p.email ∧
      (discordVerify [] p t2 (discordVerify [] p t1 st).2).2.docs.length =
        (discordVerify [] p t1 st).2.docs.length) := by
  refine ⟨?_, ?_, ?_, ?_⟩
  · intro p now st u0 hf
    have he : steamVerify [] p now st =
        ((none, some (updSteamUser u0 p now)), saveExisting st (updSteamUser u0 p now)) := by
      simp [steamVerify, opFails_nil, hf]
    exact ⟨by rw [he], rfl, rfl, rfl⟩
  · intro p now st u hres
    rcases discordVerify_cases [] p now st with
      ⟨h1, _, _⟩ | ⟨_, c0, _, he⟩ | ⟨_, _, he⟩ | ⟨u0, _, he⟩
    · rw [hres] at h1; cases h1
    · rw [he] at hres
      have : mergedDiscordUser c0 p = u := Option.some.inj hres
      rw [← this]
      exact ⟨rfl, rfl, rfl⟩
    · rw [he] at hres
      have : newDiscordUser st.nextUid p now = u := Option.some.inj hres
      rw [← this]
      exact ⟨rfl, rfl, rfl⟩
    · rw [he] at hres
      have : updDiscordUser u0 p now = u := Option.some.inj hres
      rw [← this]
      exact updDiscordUser_profile u0 p now
  · intro p t1 t2 st hf
    have he1 : steamVerify [] p t1 st =
        ((none, some (newSteamUser st.nextUid p t1)),
          saveNew st (newSteamUser st.nextUid p t1)) := by
      simp [steamVerify, opFails_nil, hf]
    set st1 := (steamVerify [] p t1 st).2 with hst1
    have hf2 : findBySteamId st1.docs p.id = some (newSteamUser st.nextUid p t1) := by
      rw [hst1, he1]
      exact findBySteamId_append_new hf rfl
    have he2 : steamVerify [] p t2 st1 =
        ((none, some (updSteamUser (newSteamUser st.nextUid p t1) p t2)),
          saveExisting st1 (updSteamUser (newSteamUser st.nextUid p t1) p t2)) := by
      simp [steamVerify, opFails_nil, hf2]
    refine ⟨by rw [he2], rfl, rfl, rfl, rfl, ?_⟩
    rw [he2]
    rw [saveExisting_length, hst1, he1]
    show (st.docs ++ [newSteamUser st.nextUid p t1]).length = st.docs.length + 1
    simp
  · intro p t1 t2 st r1 hno hres1
    set st1 := (discordVerify [] p t1 st).2 with hst1
    have step1 : findByDiscordId st1.docs p.id = some r1 := by
      rcases discordVerify_cases [] p t1 st with
        ⟨h1, _, _⟩ | ⟨_, c0, hm, he⟩ | ⟨_, _, he⟩ | ⟨u0, hf, he⟩
      · rw [hres1] at h1; cases h1
      · rw [he] at hres1
        have hr : mergedDiscordUser c0 p = r1 := Option.some.inj hres1
        rw [hst1, he, ← hr]
        show findByDiscordId (saveExisting st (mergedDiscordUser c0 p)).docs p.id =
          some (mergedDiscordUser c0 p)
        exact findByDiscordId_replace hno rfl ⟨c0, (mergeCandidate_spec hm).1, rfl⟩
      · rw [he] at hres1
        have hr : newDiscordUser st.nextUid p t1 = r1 := Option.some.inj hres1
        rw [hst1, he, ← hr]
        show findByDiscordId (st.docs ++ [newDiscordUser st.nextUid p t1]) p.id =
          some (newDiscordUser st.nextUid p t1)
        exact findByDiscordId_append_new hno rfl
      · rw [hf] at hno
        cases hno
    have he2 : discordVerify [] p t2 st1 =
        ((none, some (updDiscordUser r1 p t2)),
          saveExisting st1 (updDiscordUser r1 p t2)) := by
      simp [discordVerify, opFails_nil, step1]
    refine ⟨step1, by rw [he2], updDiscordUser_uid r1 p t2, ?_,
      (updDiscordUser_profile r1 p t2).1, (updDiscordUser_profile r1 p t2).2.1,
      (updDiscordUser_profile r1 p t2).2.2, ?_⟩
    · rw [updDiscordUser_discordId]
      exact (findByDiscordId_mem step1).2
    · rw [he2]
      exact saveExisting_length st1 _

theorem profile_fields_overwrite_amended_witness :
    (steamVerify [] spA 2 (steamVerify [] spA 1 emptyStore).2).1.2 =
      some (updSteamUser (newSteamUser 0 spA 1) spA 2) ∧
    (updSteamUser (newSteamUser 0 spA 1) spA 2).steamId = some spA.id ∧
    (updSteamUser (newSteamUser 0 spA 1) spA 2).steamName = some spA.displayName ∧
    (updSteamUser (newSteamUser 0 spA 1) spA 2).steamAvatar = spA.photo ∧
    (updSteamUser (newSteamUser 0 spA 1) spA 2).steamProfileUrl = some spA.profileurl ∧
    (steamVerify [] spA 2 (steamVerify [] spA 1 emptyStore).2).2.docs.length =
      emptyStore.docs.length + 1 :=
  profile_fields_overwrite_amended.2.2.1 spA 1 2 emptyStore (by decide)

/-- C6 counterexample: a Discord login that resolves a pre-existing
Steam-only identity through the merge-candidate path leaves that
identity's `lastLogin` untouched (here still unset) instead of updating it
to the current time. -/
theorem merge_path_lastLogin_counterexample :
    (discordVerify [] dpX 7 stA).1.2 =
      some (mergedDiscordUser (newSteamUser 0 spA 5) dpX) ∧
    (mergedDiscordUser (newSteamUser 0 spA 5) dpX).lastLogin = none ∧
    (mergedDiscordUser (newSteamUser 0 spA 5) dpX).lastLogin ≠ some 7 := by
  decide

/-- C6 amended: `lastLogin` is updated to the current time on a Steam
authentication matching an existing `steamId` and on a Discord
authentication matching an existing `discordId`; the Discord
merge-candidate path, although it resolves a pre-existing identity, leaves
the candidate's `lastLogin` unchanged. -/
theorem lastLogin_updated_amended :
    (∀ (p : SteamProfile) (now : Nat) (st : Store) (u0 : Identity),
      findBySteamId st.docs p.id = some u0 →
      (steamVerify [] p now st).1.2 = some (updSteamUser u0 p now) ∧
      (updSteamUser u0 p now).lastLogin = some now) ∧
    (∀ (p : DiscordProfile) (now : Nat) (st : Store) (u0 : Identity),
      findByDiscordId st.docs p.id = some u0 →
      (discordVerify [] p now st).1.2 = some (updDiscordUser u0 p now) ∧
      (updDiscordUser u0 p now).lastLogin = some now) ∧
    (∀ (p : DiscordProfile) (now : Nat) (st : Store) (c : Identity),
      findByDiscordId st.docs p.id = none → mergeCandidate st.docs = some c →
      (discordVerify [] p now st).1.2 = some (mergedDiscordUser c p) ∧
      (mergedDiscordUser c p).lastLogin = c.lastLogin) := by
  refine ⟨?_, ?_, ?_⟩
  · intro p now st u0 hf
    have he : steamVerify [] p now st =
        ((none, some (updSteamUser u0 p now)), saveExisting st (updSteamUser u0 p now)) := by
      simp [steamVerify, opFails_nil, hf]
    exact ⟨by rw [he], rfl⟩
  · intro p now st u0 hf
    have he : discordVerify [] p now st =
        ((none, some (updDiscordUser u0 p now)),
          saveExisting st (updDiscordUser u0 p now)) := by
      simp [discordVerify, opFails_nil, hf]
    exact ⟨by rw [he], updDiscordUser_lastLogin u0 p now⟩
  · intro p now st c hno hc
    have he : discordVerify [] p now st =
        ((none, some (mergedDiscordUser c p)), saveExisting st (mergedDiscordUser c p)) := by
      simp [discordVerify, opFails_nil, hno, hc]
    exact ⟨by rw [he], rfl⟩

theorem lastLogin_updated_amended_witness :
    (steamVerify [] spA2 9 stA).1.2 = some (updSteamUser (newSteamUser 0 spA 5) spA2 9) ∧
    (updSteamUser (newSteamUser 0 spA 5) spA2 9).lastLogin = some 9 :=
  lastLogin_updated_amended.1 spA2 9 stA (newSteamUser 0 spA 5) (by decide)

/-- C7: a session whose stored durable id no longer resolves to any
Identity is deserialized as `done(null, null)`, and `/api/user` then
answers exactly the same `Not authenticated` response as a request with no
session at all — the two outcomes are not distinguishable; only a thrown
lookup error reaches the distinct error channel. -/
theorem deserialize_deleted_like_no_session :
    deserializeUser false stA 1 = (none, none) ∧
    apiUser (sessionUser stA (some 1)) = ApiUserResp.notAuthenticated ∧
    apiUser (sessionUser stA none) = ApiUserResp.notAuthenticated ∧
    deserializeUser true stA 0 = (some 0, none) := by
  decide

/-- C8: whenever a persistence operation of a Steam or Discord verify
execution raises an error, the callback is invoked with that error and a
null identity, and the store is exactly what it was before the flow (no
partial write, no retry). -/
theorem persistence_error_aborts (fails : List Bool) (p : SteamProfile)
    (q : DiscordProfile) (now : Nat) (st : Store) (e : Nat) :
    ((steamVerify fails p now st).1.1 = some e →
      (steamVerify fails p now st).1.2 = none ∧ (steamVerify fails p now st).2 = st) ∧
    ((discordVerify fails q now st).1.1 = some e →
      (discordVerify fails q now st).1.2 = none ∧ (discordVerify fails q now st).2 = st) := by
  constructor
  · intro herr
    rcases steamVerify_cases fails p now st with ⟨h1, h2, _⟩ | ⟨_, he⟩ | ⟨u0, _, he⟩
    · exact ⟨h1, h2⟩
    · rw [he] at herr; cases herr
    · rw [he] at herr; cases herr
  · intro herr
    rcases discordVerify_cases fails q now st with
      ⟨h1, h2, _⟩ | ⟨_, c0, _, he⟩ | ⟨_, _, he⟩ | ⟨u0, _, he⟩
    · exact ⟨h1, h2⟩
    · rw [he] at herr; cases herr
    · rw [he] at herr; cases herr
    · rw [he] at herr; cases herr

theorem persistence_error_aborts_witness :
    ((steamVerify [true] spA 1 emptyStore).1.2 = none ∧
      (steamVerify [true] spA 1 emptyStore).2 = emptyStore) ∧
    ((discordVerify [true] dpX 1 emptyStore).1.2 = none ∧
      (discordVerify [true] dpX 1 emptyStore).2 = emptyStore) :=
  ⟨(persistence_error_aborts [true] spA dpX 1 emptyStore 0).1 (by decide),
   (persistence_error_aborts [true] spA dpX 1 emptyStore 0).2 (by decide)⟩

end Railway
